import Mathlib

/-!
Verification of `standardize_cv.py` (CV standardization pipeline).

The file shallowly embeds the pure, claim-relevant parts of the source:
* the JSON salvage parser `_extract_json_object` (with the stdlib JSON
  parser abstracted as a function parameter, since `json.loads` is not
  part of this repository),
* the artifact selector `_find_best_markdown`,
* the schema projector `convert_structured_to_rendercv_yaml` together
  with `_strip_none_fields`, over a dynamic Python-value type `PyVal`
  that mirrors the `Dict[str, Any]` values the source manipulates.
-/

/-- Dynamic Python values as manipulated by the source: `None`, `bool`,
`int`, `str`, `list`, and `dict` (an insertion-ordered association list,
as Python dicts are). -/
inductive PyVal where
  | none : PyVal
  | bool : Bool → PyVal
  | int : Int → PyVal
  | str : String → PyVal
  | list : List PyVal → PyVal
  | dict : List (String × PyVal) → PyVal

/-- Python `v is None` (the identity test used by `_strip_none_fields`). -/
def isNone : PyVal → Bool
  | PyVal.none => true
  | _ => false

/-- Python truthiness: `None`, `False`, `0`, `""`, `[]`, `{}` are falsy,
everything else is truthy. -/
def truthy : PyVal → Bool
  | PyVal.none => false
  | PyVal.bool b => b
  | PyVal.int n => decide (n ≠ 0)
  | PyVal.str s => decide (s ≠ "")
  | PyVal.list xs => !xs.isEmpty
  | PyVal.dict d => !d.isEmpty

/-- Python `a or b`: `a` if truthy, else `b`. -/
def pyOr (a b : PyVal) : PyVal := if truthy a then a else b

/-- First binding of key `k` in an association list (Python dict lookup). -/
def lookupKey? (d : List (String × PyVal)) (k : String) : Option PyVal :=
  (d.find? (fun kv => kv.1 = k)).map (fun kv => kv.2)

/-- Python `d.get(k)` on a dict: the bound value, or `None` when the key
is absent. -/
def dictGet (d : List (String × PyVal)) (k : String) : PyVal :=
  (lookupKey? d k).getD PyVal.none

/-- Python dict assignment `d[k] = v`: replaces the binding in place when
the key is present (dict keys are unique, so the first binding is the
binding), appends a new binding otherwise. -/
def dictSet (d : List (String × PyVal)) (k : String) (v : PyVal) : List (String × PyVal) :=
  match d with
  | [] => [(k, v)]
  | (k₀, v₀) :: rest => if k₀ = k then (k, v) :: rest else (k₀, v₀) :: dictSet rest k v

/-- Dynamic errors the source can raise while projecting: calling `.get`
on a non-dict (`AttributeError`) and iterating a non-iterable
(`TypeError`). -/
inductive PyErr where
  | attributeError : PyErr
  | typeError : PyErr
deriving DecidableEq

/-- Python `v.get(k)`: dict lookup with `None` default; raises
`AttributeError` when `v` is not a dict. -/
def pyGet (v : PyVal) (k : String) : Except PyErr PyVal :=
  match v with
  | PyVal.dict d => Except.ok (dictGet d k)
  | _ => Except.error PyErr.attributeError

/-- Python iteration `for x in v`: lists yield their elements, strings
their characters (as one-character strings), dicts their keys; other
values raise `TypeError`. -/
def pyIter (v : PyVal) : Except PyErr (List PyVal) :=
  match v with
  | PyVal.list xs => Except.ok xs
  | PyVal.str s => Except.ok (s.data.map (fun c => PyVal.str (String.mk [c])))
  | PyVal.dict d => Except.ok (d.map (fun kv => PyVal.str kv.1))
  | _ => Except.error PyErr.typeError

mutual

/-- Python `repr` of a value (used only through `str(...)` on
list/dict/scalar values in the source's social-network block). -/
def pyRepr : PyVal → String
  | PyVal.none => "None"
  | PyVal.bool true => "True"
  | PyVal.bool false => "False"
  | PyVal.int n => toString n
  | PyVal.str s => "'" ++ s ++ "'"
  | PyVal.list xs => "[" ++ pyReprItems xs ++ "]"
  | PyVal.dict d => "\x7b" ++ pyReprPairs d ++ "\x7d"

/-- Comma-separated `repr`s of list items. -/
def pyReprItems : List PyVal → String
  | [] => ""
  | [x] => pyRepr x
  | x :: xs => pyRepr x ++ ", " ++ pyReprItems xs

/-- Comma-separated `repr`s of dict pairs. -/
def pyReprPairs : List (String × PyVal) → String
  | [] => ""
  | [(k, v)] => "'" ++ k ++ "': " ++ pyRepr v
  | (k, v) :: kvs => "'" ++ k ++ "': " ++ pyRepr v ++ ", " ++ pyReprPairs kvs

end

/-- Python `str(v)`: the string itself for strings, `repr` otherwise. -/
def pyStr (v : PyVal) : String :=
  match v with
  | PyVal.str s => s
  | v => pyRepr v

/-- ASCII whitespace as recognized by Python's `str.strip()` /
`str.isspace()` (space, tab, newline, carriage return, vertical tab,
form feed). -/
def isPySpace (c : Char) : Bool :=
  c = ' ' || c = '\t' || c = '\n' || c = '\r' || c = '\x0b' || c = '\x0c'

/-- Python `s.strip()` over the character list of a string. -/
def pyStripChars (s : List Char) : List Char :=
  ((s.dropWhile isPySpace).reverse.dropWhile isPySpace).reverse

/-- Python `s.strip()` on a string. -/
def pyStripStr (s : String) : String :=
  String.mk (pyStripChars s.data)

/-- Body of the source's `_strip_none_fields`: drop every binding whose
value `is None`, preserving order of the rest. -/
def stripNoneFields (d : List (String × PyVal)) : List (String × PyVal) :=
  d.filter (fun kv => !isNone kv.2)

/-- Loop body of the experience block (source lines 243-257): non-dict
items are skipped; dict items become a `_strip_none_fields`-cleaned entry
with a defaulted `company` and a defaulted `highlights` list. -/
def expEntryStep (item : PyVal) : Option PyVal :=
  match item with
  | PyVal.dict d => some (PyVal.dict (stripNoneFields
      [("company", pyOr (dictGet d "company") (PyVal.str "")),
       ("position", dictGet d "position"),
       ("location", dictGet d "location"),
       ("start_date", dictGet d "start_date"),
       ("end_date", dictGet d "end_date"),
       ("highlights", pyOr (dictGet d "highlights") (PyVal.list []))]))
  | _ => Option.none

/-- Loop body of the education block (source lines 263-278): non-dict
items are skipped; dict items become a cleaned entry whose `highlights`
key carries the source `notes` (defaulted to the empty list). -/
def eduEntryStep (item : PyVal) : Option PyVal :=
  match item with
  | PyVal.dict d => some (PyVal.dict (stripNoneFields
      [("institution", pyOr (dictGet d "institution") (PyVal.str "")),
       ("degree", dictGet d "degree"),
       ("field", dictGet d "field"),
       ("location", dictGet d "location"),
       ("start_date", dictGet d "start_date"),
       ("end_date", dictGet d "end_date"),
       ("highlights", pyOr (dictGet d "notes") (PyVal.list []))]))
  | _ => Option.none

/-- Filter of the skills comprehension (source line 283): keep an item
exactly when it is a string and `s.strip()` is truthy; the kept string is
NOT trimmed. -/
def skillStep (s : PyVal) : Option String :=
  match s with
  | PyVal.str str => if pyStripStr str = "" then Option.none else some str
  | _ => Option.none

/-- Social-networks list (source lines 231-235): one tagged entry per
truthy `linkedin` / `github` value, in that order. -/
def socialNetworksOf (linkedin github : PyVal) : List PyVal :=
  (if truthy linkedin then
      [PyVal.dict [("network", PyVal.str "LinkedIn"), ("username", PyVal.str (pyStr linkedin))]]
    else []) ++
  (if truthy github then
      [PyVal.dict [("network", PyVal.str "GitHub"), ("username", PyVal.str (pyStr github))]]
    else [])

/-- The `rendercv_cv` dict (source lines 222-237): the five scalar
fields, plus `social_networks` assigned afterwards when non-empty. -/
def rendercvCvOf (name email phone location website linkedin github : PyVal) :
    List (String × PyVal) :=
  let base : List (String × PyVal) :=
    [("name", pyOr name (PyVal.str "")),
     ("email", email),
     ("phone", phone),
     ("location", location),
     ("website", website)]
  let social := socialNetworksOf linkedin github
  if social.isEmpty then base else dictSet base "social_networks" (PyVal.list social)

/-- The `sections` dict (source lines 239-285): each of the three section
keys is assigned only when its collected entry list is non-empty. -/
def sectionsOf (expItems eduItems skillItems : List PyVal) : List (String × PyVal) :=
  let expEntries := expItems.filterMap expEntryStep
  let sections : List (String × PyVal) :=
    if expEntries.isEmpty then [] else [("experience", PyVal.list expEntries)]
  let eduEntries := eduItems.filterMap eduEntryStep
  let sections :=
    if eduEntries.isEmpty then sections else dictSet sections "education" (PyVal.list eduEntries)
  let skills := skillItems.filterMap skillStep
  if skills.isEmpty then sections
  else
    dictSet sections "skills"
      (PyVal.list [PyVal.dict [("details", PyVal.str (String.intercalate ", " skills))]])

/-- Final assembly (source lines 287-294): strip `None` fields from
`rendercv_cv`, wrap it under `"cv"`, and set `"sections"` on the inner
dict only when `sections` is non-empty. -/
def assemble (name email phone location website linkedin github : PyVal)
    (expItems eduItems skillItems : List PyVal) : List (String × PyVal) :=
  let cvOut := stripNoneFields (rendercvCvOf name email phone location website linkedin github)
  let sections := sectionsOf expItems eduItems skillItems
  if sections.isEmpty then [("cv", PyVal.dict cvOut)]
  else [("cv", PyVal.dict (dictSet cvOut "sections" (PyVal.dict sections)))]

/-- The source's `convert_structured_to_rendercv_yaml`: performs the
fallible dynamic accesses (`.get` on possibly-non-dict values, iteration
of possibly-non-iterable values) in source order, then assembles the pure
result. `cv = structured.get("cv") or {}` and
`contact = cv.get("contact_info") or {}` are modelled by `pyOr`; every
field access is `pyGet`/`dictGet` exactly as in the source. -/
def convert_structured_to_rendercv_yaml (structured : List (String × PyVal)) :
    Except PyErr (List (String × PyVal)) := do
  let cv := pyOr (dictGet structured "cv") (PyVal.dict [])
  let contact := pyOr (← pyGet cv "contact_info") (PyVal.dict [])
  let name ← pyGet cv "name"
  let email ← pyGet contact "email"
  let phone ← pyGet contact "phone"
  let location ← pyGet contact "location"
  let website ← pyGet contact "website"
  let linkedin ← pyGet contact "linkedin"
  let github ← pyGet contact "github"
  let expItems ← pyIter (pyOr (← pyGet cv "experience") (PyVal.list []))
  let eduItems ← pyIter (pyOr (← pyGet cv "education") (PyVal.list []))
  let skillItems ← pyIter (pyOr (← pyGet cv "skills") (PyVal.list []))
  return assemble name email phone location website linkedin github expItems eduItems skillItems

/-- Python `text.find(c)` for a one-character pattern: index of the first
occurrence, `None` standing for `-1`. -/
def pyFindChar (c : Char) (s : List Char) : Option Nat :=
  s.findIdx? (fun a => a = c)

/-- Python `text.rfind(c)` for a one-character pattern: index of the last
occurrence, `None` standing for `-1`. -/
def pyRFindChar (c : Char) (s : List Char) : Option Nat :=
  (pyFindChar c s.reverse).map (fun i => s.length - 1 - i)

/-- Python slice `s[a:b]` for `0 ≤ a, b` (clamping at the ends exactly as
`take`/`drop` do). -/
def pySliceChars (s : List Char) (a b : Nat) : List Char :=
  (s.take b).drop a

/-- Failure modes of `_extract_json_object`: the `ValueError` raised when
no brace bounds exist (`NoJsonFound`), and the propagated
`json.JSONDecodeError` of the sliced candidate (`InvalidJson`). -/
inductive SalvageErr where
  | noJsonFound : SalvageErr
  | invalidJson : SalvageErr
deriving DecidableEq

/-- The source's `_extract_json_object` (lines 144-159). The stdlib JSON
parser `json.loads` is not part of this repository, so it is abstracted
as the parameter `parse` (returning `Option.none` exactly when
`json.loads` would raise `json.JSONDecodeError`); `α` stands for the
parsed-document type. The algorithm itself — strip, direct parse, first
`\x7b` / last `\x7d` bounds, slice, reparse — is translated literally. -/
def extractJsonObject {α : Type} (parse : List Char → Option α) (text : List Char) :
    Except SalvageErr α :=
  let text := pyStripChars text
  match parse text with
  | some v => Except.ok v
  | Option.none =>
    match pyFindChar '{' text, pyRFindChar '}' text with
    | some start, some last =>
      if last ≤ start then Except.error SalvageErr.noJsonFound
      else
        match parse (pySliceChars text start (last + 1)) with
        | some v => Except.ok v
        | Option.none => Except.error SalvageErr.invalidJson
    | _, _ => Except.error SalvageErr.noJsonFound

/-- A candidate markdown file as seen by `_find_best_markdown`: its
filename and its size in bytes (`p.stat().st_size`). -/
structure MdFile where
  name : String
  size : Nat
deriving DecidableEq

/-- Lower-cased substring test, modelling
`re.search(r"(cv|resume)", name, re.IGNORECASE)` for a fixed literal
alternation. -/
def containsSubstr (pat s : List Char) : Bool :=
  (List.range (s.length + 1)).any (fun i => decide ((s.drop i).take pat.length = pat))

/-- The `name_bias` component of the source's `score` (line 111): 1 when
the filename matches the resume/cv pattern case-insensitively, else 0. -/
def nameBias (name : String) : Nat :=
  let lower := name.data.map Char.toLower
  if containsSubstr "cv".data lower || containsSubstr "resume".data lower then 1 else 0

/-- The source's `score` (lines 109-116): the pair
`(name_bias, size_in_bytes)`. -/
def scoreMd (f : MdFile) : Nat × Nat := (nameBias f.name, f.size)

/-- Strict lexicographic order on score pairs, i.e. Python's `<` on
2-tuples of ints. -/
def keyLt (a b : Nat × Nat) : Bool :=
  a.1 < b.1 || (a.1 = b.1 && a.2 < b.2)

/-- Stable descending insertion: `x` is placed before the first element
whose key is not greater than `x`'s, so earlier input elements stay first
on ties. -/
def insertDesc (x : MdFile) : List MdFile → List MdFile
  | [] => [x]
  | y :: ys => if keyLt (scoreMd x) (scoreMd y) then y :: insertDesc x ys else x :: y :: ys

/-- Python's `candidates.sort(key=score, reverse=True)`: a stable sort by
descending key. A stable sort's output is uniquely determined by the key,
so it is embedded as stable insertion sort. -/
def sortDescStable : List MdFile → List MdFile
  | [] => []
  | x :: xs => insertDesc x (sortDescStable xs)

/-- Failure mode of `_find_best_markdown`: the `RuntimeError` raised when
marker produced no candidate files. -/
inductive SelectErr where
  | noArtifacts : SelectErr
deriving DecidableEq

/-- The source's `_find_best_markdown` (lines 104-119): fail on an empty
candidate list, otherwise sort by descending `(name_bias, size)` and
return the first element. -/
def findBestMarkdown (candidates : List MdFile) : Except SelectErr MdFile :=
  match sortDescStable candidates with
  | [] => Except.error SelectErr.noArtifacts
  | best :: _ => Except.ok best

/-- Modelled from the spec (§4.2 "Scoring key, descending … ties broken
by stable input order"): the first element of the list attaining the
maximal score, written directly from the spec's words for the refinement
proof of the selector claim. -/
def firstMaxMd : List MdFile → Option MdFile
  | [] => Option.none
  | x :: xs =>
    match firstMaxMd xs with
    | Option.none => some x
    | some m => if keyLt (scoreMd x) (scoreMd m) then some m else some x

/-- Shape predicate for the totality claim: the spec's §3
`StructuredRecord` in dynamic form — `cv` is (or defaults to) a dict,
`contact_info` is (or defaults to) a dict, and the three section fields
are (or default to) lists. List entries are deliberately unconstrained:
the projector must tolerate malformed entries. -/
def isStructuredRecord (structured : List (String × PyVal)) : Bool :=
  match pyOr (dictGet structured "cv") (PyVal.dict []) with
  | PyVal.dict cvd =>
      (match pyOr (dictGet cvd "contact_info") (PyVal.dict []) with
        | PyVal.dict _ => true
        | _ => false) &&
      (match pyOr (dictGet cvd "experience") (PyVal.list []) with
        | PyVal.list _ => true
        | _ => false) &&
      (match pyOr (dictGet cvd "education") (PyVal.list []) with
        | PyVal.list _ => true
        | _ => false) &&
      (match pyOr (dictGet cvd "skills") (PyVal.list []) with
        | PyVal.list _ => true
        | _ => false)
  | _ => false

theorem ok_bind {ε α β : Type} (a : α) (f : α → Except ε β) :
    (Except.ok a >>= f : Except ε β) = f a := rfl

theorem error_bind {ε α β : Type} (e : ε) (f : α → Except ε β) :
    (Except.error e >>= f : Except ε β) = Except.error e := rfl

theorem isNone_iff (v : PyVal) : isNone v = true ↔ v = PyVal.none := by
  cases v <;> simp [isNone]

theorem isNone_false_iff (v : PyVal) : isNone v = false ↔ v ≠ PyVal.none := by
  cases v <;> simp [isNone]

theorem truthy_none_false : truthy PyVal.none = false := rfl

theorem isNone_pyOr (a b : PyVal) (hb : isNone b = false) : isNone (pyOr a b) = false := by
  unfold pyOr
  split
  · next h =>
      cases a <;> simp_all [truthy, isNone]
  · exact hb

theorem lookupKey?_nil (k : String) : lookupKey? [] k = Option.none := rfl

theorem lookupKey?_cons (k₀ : String) (v : PyVal) (l : List (String × PyVal)) (k : String) :
    lookupKey? ((k₀, v) :: l) k = if k₀ = k then some v else lookupKey? l k := by
  by_cases h : k₀ = k <;> simp [lookupKey?, List.find?_cons, h]

theorem lookupKey?_dictSet_self (l : List (String × PyVal)) (k : String) (v : PyVal) :
    lookupKey? (dictSet l k v) k = some v := by
  induction l with
  | nil => simp [dictSet, lookupKey?_cons]
  | cons hd tl ih =>
      obtain ⟨k₀, v₀⟩ := hd
      by_cases h : k₀ = k <;> simp [dictSet, h, lookupKey?_cons, ih]

theorem lookupKey?_dictSet_ne (l : List (String × PyVal)) (k k' : String) (v : PyVal)
    (h : k' ≠ k) : lookupKey? (dictSet l k v) k' = lookupKey? l k' := by
  have hne : ¬ (k = k') := fun a => h a.symm
  induction l with
  | nil => simp [dictSet, lookupKey?_cons, lookupKey?_nil, hne]
  | cons hd tl ih =>
      obtain ⟨k₀, v₀⟩ := hd
      by_cases hk : k₀ = k
      · subst hk
        simp [dictSet, lookupKey?_cons, hne]
      · simp [dictSet, hk, lookupKey?_cons, ih]

theorem mem_dictSet (l : List (String × PyVal)) (k : String) (v : PyVal)
    (kv : String × PyVal) (h : kv ∈ dictSet l k v) : kv ∈ l ∨ kv = (k, v) := by
  induction l with
  | nil => simp [dictSet] at h; simp [h]
  | cons hd tl ih =>
      obtain ⟨k₀, v₀⟩ := hd
      by_cases hk : k₀ = k
      · subst hk
        simp [dictSet] at h
        rcases h with h | h
        · right; simp [h]
        · left; simp [h]
      · simp [dictSet, hk] at h
        rcases h with h | h
        · left; simp [h]
        · rcases ih h with h' | h'
          · left; simp [h']
          · right; exact h'

theorem stripNone_cons_none (k₀ : String) (tl : List (String × PyVal)) :
    stripNoneFields ((k₀, PyVal.none) :: tl) = stripNoneFields tl := by
  simp [stripNoneFields, List.filter_cons, isNone]

theorem stripNone_cons_ne (k₀ : String) (v₀ : PyVal) (tl : List (String × PyVal))
    (hv : v₀ ≠ PyVal.none) :
    stripNoneFields ((k₀, v₀) :: tl) = (k₀, v₀) :: stripNoneFields tl := by
  simp [stripNoneFields, List.filter_cons, (isNone_false_iff v₀).mpr hv]

theorem stripNone_lookup_none_iff (l : List (String × PyVal)) (k : String) :
    lookupKey? (stripNoneFields l) k = Option.none ↔ ∀ v, (k, v) ∈ l → v = PyVal.none := by
  induction l with
  | nil => simp [stripNoneFields, lookupKey?_nil]
  | cons hd tl ih =>
      obtain ⟨k₀, v₀⟩ := hd
      by_cases hv : v₀ = PyVal.none
      · subst hv
        rw [stripNone_cons_none, ih]
        constructor
        · intro hall v hm
          rcases List.mem_cons.mp hm with h | h
          · cases h; rfl
          · exact hall v h
        · intro hall v hm
          exact hall v (List.mem_cons_of_mem _ hm)
      · rw [stripNone_cons_ne _ _ _ hv, lookupKey?_cons]
        by_cases hk : k₀ = k
        · subst hk
          rw [if_pos rfl]
          constructor
          · intro h; simp at h
          · intro hall
            exact absurd (hall v₀ (List.mem_cons_self _ _)) hv
        · rw [if_neg hk, ih]
          constructor
          · intro hall v hm
            rcases List.mem_cons.mp hm with h | h
            · cases h; exact absurd rfl hk
            · exact hall v h
          · intro hall v hm
            exact hall v (List.mem_cons_of_mem _ hm)

theorem stripNone_lookup_of_some (l : List (String × PyVal)) (k : String) (v : PyVal)
    (h : lookupKey? l k = some v) (hv : v ≠ PyVal.none) :
    lookupKey? (stripNoneFields l) k = some v := by
  induction l with
  | nil => simp [lookupKey?_nil] at h
  | cons hd tl ih =>
      obtain ⟨k₀, v₀⟩ := hd
      by_cases hk : k₀ = k
      · subst hk
        rw [lookupKey?_cons, if_pos rfl] at h
        injection h with h
        subst h
        rw [stripNone_cons_ne _ _ _ hv, lookupKey?_cons, if_pos rfl]
      · rw [lookupKey?_cons, if_neg hk] at h
        by_cases hv₀ : v₀ = PyVal.none
        · subst hv₀
          rw [stripNone_cons_none]
          exact ih h
        · rw [stripNone_cons_ne _ _ _ hv₀, lookupKey?_cons, if_neg hk]
          exact ih h

theorem mem_stripNone_ne_none (l : List (String × PyVal)) (kv : String × PyVal)
    (h : kv ∈ stripNoneFields l) : kv.2 ≠ PyVal.none := by
  have := (List.mem_filter.mp h).2
  rw [Bool.not_eq_true'] at this
  exact (isNone_false_iff kv.2).mp this

theorem pyGet_dict (d : List (String × PyVal)) (k : String) :
    pyGet (PyVal.dict d) k = Except.ok (dictGet d k) := rfl

theorem convert_shape (structured cvd cd : List (String × PyVal))
    (h1 : pyOr (dictGet structured "cv") (PyVal.dict []) = PyVal.dict cvd)
    (h2 : pyOr (dictGet cvd "contact_info") (PyVal.dict []) = PyVal.dict cd) :
    convert_structured_to_rendercv_yaml structured =
      (pyIter (pyOr (dictGet cvd "experience") (PyVal.list [])) >>= fun expItems =>
       pyIter (pyOr (dictGet cvd "education") (PyVal.list [])) >>= fun eduItems =>
       pyIter (pyOr (dictGet cvd "skills") (PyVal.list [])) >>= fun skillItems =>
       Except.ok (assemble (dictGet cvd "name") (dictGet cd "email") (dictGet cd "phone")
         (dictGet cd "location") (dictGet cd "website") (dictGet cd "linkedin")
         (dictGet cd "github") expItems eduItems skillItems)) := by
  simp only [convert_structured_to_rendercv_yaml, h1, pyGet_dict, ok_bind, h2]
  rfl

theorem convert_ok_of_shapes (structured cvd cd : List (String × PyVal))
    (expItems eduItems skillItems : List PyVal)
    (h1 : pyOr (dictGet structured "cv") (PyVal.dict []) = PyVal.dict cvd)
    (h2 : pyOr (dictGet cvd "contact_info") (PyVal.dict []) = PyVal.dict cd)
    (hexp : pyIter (pyOr (dictGet cvd "experience") (PyVal.list [])) = Except.ok expItems)
    (hedu : pyIter (pyOr (dictGet cvd "education") (PyVal.list [])) = Except.ok eduItems)
    (hski : pyIter (pyOr (dictGet cvd "skills") (PyVal.list [])) = Except.ok skillItems) :
    convert_structured_to_rendercv_yaml structured =
      Except.ok (assemble (dictGet cvd "name") (dictGet cd "email") (dictGet cd "phone")
        (dictGet cd "location") (dictGet cd "website") (dictGet cd "linkedin")
        (dictGet cd "github") expItems eduItems skillItems) := by
  rw [convert_shape structured cvd cd h1 h2, hexp, ok_bind, hedu, ok_bind, hski, ok_bind]

theorem convert_ok_inversion (structured cvd cd out : List (String × PyVal))
    (h1 : pyOr (dictGet structured "cv") (PyVal.dict []) = PyVal.dict cvd)
    (h2 : pyOr (dictGet cvd "contact_info") (PyVal.dict []) = PyVal.dict cd)
    (hok : convert_structured_to_rendercv_yaml structured = Except.ok out) :
    ∃ expItems eduItems skillItems,
      pyIter (pyOr (dictGet cvd "experience") (PyVal.list [])) = Except.ok expItems ∧
      pyIter (pyOr (dictGet cvd "education") (PyVal.list [])) = Except.ok eduItems ∧
      pyIter (pyOr (dictGet cvd "skills") (PyVal.list [])) = Except.ok skillItems ∧
      out = assemble (dictGet cvd "name") (dictGet cd "email") (dictGet cd "phone")
        (dictGet cd "location") (dictGet cd "website") (dictGet cd "linkedin")
        (dictGet cd "github") expItems eduItems skillItems := by
  rw [convert_shape structured cvd cd h1 h2] at hok
  cases hexp : pyIter (pyOr (dictGet cvd "experience") (PyVal.list [])) with
  | error e => rw [hexp, error_bind] at hok; cases hok
  | ok expItems =>
    rw [hexp, ok_bind] at hok
    cases hedu : pyIter (pyOr (dictGet cvd "education") (PyVal.list [])) with
    | error e => rw [hedu, error_bind] at hok; cases hok
    | ok eduItems =>
      rw [hedu, ok_bind] at hok
      cases hski : pyIter (pyOr (dictGet cvd "skills") (PyVal.list [])) with
      | error e => rw [hski, error_bind] at hok; cases hok
      | ok skillItems =>
        rw [hski, ok_bind] at hok
        injection hok with hok
        exact ⟨expItems, eduItems, skillItems, rfl, rfl, rfl, hok.symm⟩

theorem mem_rendercvCv (name email phone location website linkedin github : PyVal)
    (f : String) (v : PyVal)
    (h : (f, v) ∈ rendercvCvOf name email phone location website linkedin github) :
    (f = "name" ∧ v = pyOr name (PyVal.str "")) ∨
    (f = "email" ∧ v = email) ∨
    (f = "phone" ∧ v = phone) ∨
    (f = "location" ∧ v = location) ∨
    (f = "website" ∧ v = website) ∨
    (f = "social_networks" ∧ v = PyVal.list (socialNetworksOf linkedin github)) := by
  unfold rendercvCvOf at h
  by_cases hs : (socialNetworksOf linkedin github).isEmpty
  · rw [if_pos hs] at h
    simp only [List.mem_cons, List.not_mem_nil, or_false, Prod.mk.injEq] at h
    rcases h with h | h | h | h | h <;> simp [h]
  · rw [if_neg hs] at h
    have h' := mem_dictSet _ _ _ _ h
    rcases h' with h' | h'
    · simp only [List.mem_cons, List.not_mem_nil, or_false, Prod.mk.injEq] at h'
      rcases h' with h' | h' | h' | h' | h' <;> simp [h']
    · rw [Prod.mk.injEq] at h'
      simp [h'.1, h'.2]

theorem rendercvCv_lookup_name (name email phone location website linkedin github : PyVal) :
    lookupKey? (stripNoneFields
        (rendercvCvOf name email phone location website linkedin github)) "name" =
      some (pyOr name (PyVal.str "")) := by
  have hval : pyOr name (PyVal.str "") ≠ PyVal.none := by
    have := isNone_pyOr name (PyVal.str "") (by simp [isNone])
    exact (isNone_false_iff _).mp this
  apply stripNone_lookup_of_some _ _ _ _ hval
  unfold rendercvCvOf
  by_cases hs : (socialNetworksOf linkedin github).isEmpty
  · rw [if_pos hs, lookupKey?_cons, if_pos rfl]
  · rw [if_neg hs]
    rw [show dictSet [("name", pyOr name (PyVal.str "")), ("email", email), ("phone", phone),
        ("location", location), ("website", website)] "social_networks"
        (PyVal.list (socialNetworksOf linkedin github)) =
        [("name", pyOr name (PyVal.str "")), ("email", email), ("phone", phone),
         ("location", location), ("website", website),
         ("social_networks", PyVal.list (socialNetworksOf linkedin github))] from by
      simp [dictSet]]
    rw [lookupKey?_cons, if_pos rfl]

theorem sectionsOf_lookup_exp (e d s : List PyVal) :
    lookupKey? (sectionsOf e d s) "experience" =
      if (e.filterMap expEntryStep).isEmpty then Option.none
      else some (PyVal.list (e.filterMap expEntryStep)) := by
  unfold sectionsOf
  by_cases hE : e.filterMap expEntryStep = [] <;>
    by_cases hD : d.filterMap eduEntryStep = [] <;>
      by_cases hS : s.filterMap skillStep = [] <;>
        simp [List.isEmpty_iff, hE, hD, hS, dictSet, lookupKey?_cons, lookupKey?_nil]

theorem sectionsOf_lookup_edu (e d s : List PyVal) :
    lookupKey? (sectionsOf e d s) "education" =
      if (d.filterMap eduEntryStep).isEmpty then Option.none
      else some (PyVal.list (d.filterMap eduEntryStep)) := by
  unfold sectionsOf
  by_cases hE : e.filterMap expEntryStep = [] <;>
    by_cases hD : d.filterMap eduEntryStep = [] <;>
      by_cases hS : s.filterMap skillStep = [] <;>
        simp [List.isEmpty_iff, hE, hD, hS, dictSet, lookupKey?_cons, lookupKey?_nil]

theorem sectionsOf_lookup_skills (e d s : List PyVal) :
    lookupKey? (sectionsOf e d s) "skills" =
      if (s.filterMap skillStep).isEmpty then Option.none
      else some (PyVal.list [PyVal.dict
        [("details", PyVal.str (String.intercalate ", " (s.filterMap skillStep)))]]) := by
  unfold sectionsOf
  by_cases hE : e.filterMap expEntryStep = [] <;>
    by_cases hD : d.filterMap eduEntryStep = [] <;>
      by_cases hS : s.filterMap skillStep = [] <;>
        simp [List.isEmpty_iff, hE, hD, hS, dictSet, lookupKey?_cons, lookupKey?_nil]

theorem sectionsOf_eq_nil_iff (e d s : List PyVal) :
    sectionsOf e d s = [] ↔
      (e.filterMap expEntryStep = [] ∧ d.filterMap eduEntryStep = [] ∧
       s.filterMap skillStep = []) := by
  unfold sectionsOf
  by_cases hE : e.filterMap expEntryStep = [] <;>
    by_cases hD : d.filterMap eduEntryStep = [] <;>
      by_cases hS : s.filterMap skillStep = [] <;>
        simp [List.isEmpty_iff, hE, hD, hS, dictSet]

theorem assemble_lookup_cv (name email phone location website linkedin github : PyVal)
    (expItems eduItems skillItems : List PyVal) :
    lookupKey? (assemble name email phone location website linkedin github
        expItems eduItems skillItems) "cv" =
      some (PyVal.dict
        (if (sectionsOf expItems eduItems skillItems).isEmpty
         then stripNoneFields (rendercvCvOf name email phone location website linkedin github)
         else dictSet
           (stripNoneFields (rendercvCvOf name email phone location website linkedin github))
           "sections" (PyVal.dict (sectionsOf expItems eduItems skillItems)))) := by
  unfold assemble
  by_cases h : sectionsOf expItems eduItems skillItems = [] <;>
    simp [List.isEmpty_iff, h, lookupKey?_cons]

theorem keyLt_true_iff (a b : Nat × Nat) :
    keyLt a b = true ↔ (a.1 < b.1 ∨ (a.1 = b.1 ∧ a.2 < b.2)) := by
  simp [keyLt]

theorem keyLt_false_iff (a b : Nat × Nat) :
    keyLt a b = false ↔ (b.1 < a.1 ∨ (b.1 = a.1 ∧ b.2 ≤ a.2)) := by
  rw [← Bool.not_eq_true, keyLt_true_iff]
  omega

theorem firstMaxMd_eq_none_iff (l : List MdFile) : firstMaxMd l = Option.none ↔ l = [] := by
  cases l with
  | nil => simp [firstMaxMd]
  | cons x xs =>
      simp only [firstMaxMd]
      cases firstMaxMd xs with
      | none => simp
      | some m => by_cases h : keyLt (scoreMd x) (scoreMd m) = true <;> simp [h]

theorem firstMaxMd_spec (l : List MdFile) (m : MdFile) (h : firstMaxMd l = some m) :
    m ∈ l ∧ ∀ g ∈ l, keyLt (scoreMd m) (scoreMd g) = false := by
  induction l generalizing m with
  | nil => cases h
  | cons x xs ih =>
      rw [firstMaxMd] at h
      cases hfm : firstMaxMd xs with
      | none =>
          rw [hfm] at h
          injection h with h
          subst h
          have hxs : xs = [] := (firstMaxMd_eq_none_iff xs).mp hfm
          subst hxs
          refine ⟨List.mem_cons_self _ _, ?_⟩
          intro g hg
          rcases List.mem_cons.mp hg with hg | hg
          · subst hg
            rw [keyLt_false_iff]
            omega
          · cases hg
      | some m' =>
          rw [hfm] at h
          dsimp only at h
          rcases ih m' hfm with ⟨hm'mem, hm'max⟩
          by_cases hk : keyLt (scoreMd x) (scoreMd m') = true
          · rw [if_pos hk] at h
            injection h with h
            subst h
            refine ⟨List.mem_cons_of_mem _ hm'mem, ?_⟩
            intro g hg
            rcases List.mem_cons.mp hg with hg | hg
            · subst hg
              rw [keyLt_true_iff] at hk
              rw [keyLt_false_iff]
              omega
            · exact hm'max g hg
          · rw [if_neg hk] at h
            injection h with h
            subst h
            refine ⟨List.mem_cons_self _ _, ?_⟩
            intro g hg
            rcases List.mem_cons.mp hg with hg | hg
            · subst hg
              rw [keyLt_false_iff]
              omega
            · have hgm := hm'max g hg
              rw [Bool.not_eq_true, keyLt_false_iff] at hk
              rw [keyLt_false_iff] at hgm ⊢
              omega

theorem sortDescStable_head (l : List MdFile) :
    (sortDescStable l).head? = firstMaxMd l := by
  induction l with
  | nil => rfl
  | cons x xs ih =>
      rw [sortDescStable, firstMaxMd]
      cases hs : sortDescStable xs with
      | nil =>
          rw [hs] at ih
          rw [← ih]
          simp [insertDesc]
      | cons y t =>
          rw [hs] at ih
          rw [← ih]
          simp only [insertDesc, List.head?]
          by_cases hk : keyLt (scoreMd x) (scoreMd y) = true <;> simp [hk]

/-- C6: for every non-empty candidate set, `_find_best_markdown`
deterministically returns the first file attaining the maximal
`(name_bias, size)` key (the spec-side `firstMaxMd`): the name bias
outranks size lexicographically and ties go to the earlier input
position; in particular `resume.md` at 50 bytes beats `a.md` at 100
bytes, and with no name match `b.md` at 200 bytes beats `a.md` at 100
bytes. -/
theorem claim_c6 :
    (∀ files : List MdFile,
       findBestMarkdown files =
         (match firstMaxMd files with
          | Option.none => Except.error SelectErr.noArtifacts
          | some f => Except.ok f)) ∧
    (∀ (files : List MdFile) (f : MdFile), findBestMarkdown files = Except.ok f →
       f ∈ files ∧ ∀ g ∈ files, keyLt (scoreMd f) (scoreMd g) = false) ∧
    findBestMarkdown [⟨"a.md", 100⟩, ⟨"resume.md", 50⟩] = Except.ok ⟨"resume.md", 50⟩ ∧
    findBestMarkdown [⟨"a.md", 100⟩, ⟨"b.md", 200⟩] = Except.ok ⟨"b.md", 200⟩ := by
  have hmain : ∀ files : List MdFile,
      findBestMarkdown files =
        (match firstMaxMd files with
         | Option.none => Except.error SelectErr.noArtifacts
         | some f => Except.ok f) := by
    intro files
    have hh := sortDescStable_head files
    unfold findBestMarkdown
    cases hs : sortDescStable files with
    | nil =>
        rw [hs] at hh
        simp only [List.head?] at hh
        rw [← hh]
    | cons b t =>
        rw [hs] at hh
        simp only [List.head?] at hh
        rw [← hh]
  refine ⟨hmain, ?_, rfl, rfl⟩
  intro files f hf
  rw [hmain files] at hf
  cases hfm : firstMaxMd files with
  | none => rw [hfm] at hf; cases hf
  | some m =>
      rw [hfm] at hf
      injection hf with hf
      subst hf
      exact firstMaxMd_spec files m hfm

/-- C2: `_extract_json_object` follows exactly the claimed algorithm:
strip surrounding whitespace and try a direct parse, returning the
parsed value on success; otherwise take the substring from the first
opening brace to the last closing brace inclusive, failing with
`NoJsonFound` when either brace is absent or the last closing brace does
not come after the first opening one, and mapping a parse failure of the
slice to `InvalidJson`. Stated for every abstract JSON parser `parse`. -/
theorem claim_c2 :
    (∀ (α : Type) (parse : List Char → Option α) (text : List Char) (v : α),
       parse (pyStripChars text) = some v → extractJsonObject parse text = Except.ok v) ∧
    (∀ (α : Type) (parse : List Char → Option α) (text : List Char),
       parse (pyStripChars text) = Option.none →
       (pyFindChar '{' (pyStripChars text) = Option.none ∨
        pyRFindChar '}' (pyStripChars text) = Option.none) →
       extractJsonObject parse text = Except.error SalvageErr.noJsonFound) ∧
    (∀ (α : Type) (parse : List Char → Option α) (text : List Char) (i j : Nat),
       parse (pyStripChars text) = Option.none →
       pyFindChar '{' (pyStripChars text) = some i →
       pyRFindChar '}' (pyStripChars text) = some j →
       j ≤ i →
       extractJsonObject parse text = Except.error SalvageErr.noJsonFound) ∧
    (∀ (α : Type) (parse : List Char → Option α) (text : List Char) (i j : Nat),
       parse (pyStripChars text) = Option.none →
       pyFindChar '{' (pyStripChars text) = some i →
       pyRFindChar '}' (pyStripChars text) = some j →
       i < j →
       extractJsonObject parse text =
         (match parse (pySliceChars (pyStripChars text) i (j + 1)) with
          | some v => Except.ok v
          | Option.none => Except.error SalvageErr.invalidJson)) := by
  refine ⟨?_, ?_, ?_, ?_⟩
  · intro α parse text v h
    simp only [extractJsonObject, h]
  · intro α parse text h h2
    rcases h2 with hf | hr
    · simp only [extractJsonObject, h, hf]
    · cases hfind : pyFindChar '{' (pyStripChars text) <;>
        simp only [extractJsonObject, h, hfind, hr]
  · intro α parse text i j h hf hr hle
    simp only [extractJsonObject, h, hf, hr]
    rw [if_pos hle]
  · intro α parse text i j h hf hr hlt
    simp only [extractJsonObject, h, hf, hr]
    rw [if_neg (Nat.not_le.mpr hlt)]

/-- C8: projection is deterministic — two runs of
`convert_structured_to_rendercv_yaml` on equal inputs yield structurally
equal results (the embedding is a pure function of its argument, with no
other state). -/
theorem claim_c8 (s t : List (String × PyVal)) (h : s = t) :
    convert_structured_to_rendercv_yaml s = convert_structured_to_rendercv_yaml t := by
  rw [h]

theorem claim_c8_witness :
    convert_structured_to_rendercv_yaml [("cv", PyVal.dict [("name", PyVal.str "Ada")])] =
      convert_structured_to_rendercv_yaml [("cv", PyVal.dict [("name", PyVal.str "Ada")])] :=
  claim_c8 _ _ rfl

theorem out_sections_eq (structured cvd cd out : List (String × PyVal))
    (h1 : pyOr (dictGet structured "cv") (PyVal.dict []) = PyVal.dict cvd)
    (h2 : pyOr (dictGet cvd "contact_info") (PyVal.dict []) = PyVal.dict cd)
    (hok : convert_structured_to_rendercv_yaml structured = Except.ok out)
    (ei di si : List PyVal)
    (hei : pyIter (pyOr (dictGet cvd "experience") (PyVal.list [])) = Except.ok ei)
    (hdi : pyIter (pyOr (dictGet cvd "education") (PyVal.list [])) = Except.ok di)
    (hsi : pyIter (pyOr (dictGet cvd "skills") (PyVal.list [])) = Except.ok si)
    (m : List (String × PyVal)) (hm : lookupKey? out "cv" = some (PyVal.dict m))
    (secs : List (String × PyVal))
    (hs : lookupKey? m "sections" = some (PyVal.dict secs)) :
    secs = sectionsOf ei di si := by
  obtain ⟨ei', di', si', hei', hdi', hsi', hout⟩ :=
    convert_ok_inversion structured cvd cd out h1 h2 hok
  rw [hei] at hei'; injection hei' with hei'
  rw [hdi] at hdi'; injection hdi' with hdi'
  rw [hsi] at hsi'; injection hsi' with hsi'
  subst hei' hdi' hsi' hout
  rw [assemble_lookup_cv] at hm
  injection hm with hm
  injection hm with hm
  subst hm
  by_cases hsec : (sectionsOf ei di si).isEmpty = true
  · rw [if_pos hsec] at hs
    have hnone : lookupKey? (stripNoneFields
        (rendercvCvOf (dictGet cvd "name") (dictGet cd "email") (dictGet cd "phone")
          (dictGet cd "location") (dictGet cd "website") (dictGet cd "linkedin")
          (dictGet cd "github"))) "sections" = Option.none := by
      rw [stripNone_lookup_none_iff]
      intro v hv
      have h6 := mem_rendercvCv _ _ _ _ _ _ _ _ _ hv
      rcases h6 with ⟨hfe, _⟩ | ⟨hfe, _⟩ | ⟨hfe, _⟩ | ⟨hfe, _⟩ | ⟨hfe, _⟩ | ⟨hfe, _⟩ <;>
        exact absurd hfe (by decide)
    rw [hnone] at hs
    cases hs
  · rw [if_neg hsec, lookupKey?_dictSet_self] at hs
    injection hs with hs
    injection hs with hs
    exact hs.symm

/-- C3: every top-level contact field (email, phone, location, website)
that is missing or null in the source record is physically absent from
the projected cv mapping — the key does not appear at all. -/
theorem claim_c3 (structured cvd cd out : List (String × PyVal))
    (h1 : pyOr (dictGet structured "cv") (PyVal.dict []) = PyVal.dict cvd)
    (h2 : pyOr (dictGet cvd "contact_info") (PyVal.dict []) = PyVal.dict cd)
    (hok : convert_structured_to_rendercv_yaml structured = Except.ok out)
    (f : String) (hf : f = "email" ∨ f = "phone" ∨ f = "location" ∨ f = "website")
    (hnull : dictGet cd f = PyVal.none) :
    ∃ m, lookupKey? out "cv" = some (PyVal.dict m) ∧ lookupKey? m f = Option.none := by
  obtain ⟨ei, di, si, hei, hdi, hsi, hout⟩ :=
    convert_ok_inversion structured cvd cd out h1 h2 hok
  subst hout
  refine ⟨_, assemble_lookup_cv _ _ _ _ _ _ _ _ _ _, ?_⟩
  have hmem : ∀ v : PyVal,
      (f, v) ∈ rendercvCvOf (dictGet cvd "name") (dictGet cd "email") (dictGet cd "phone")
        (dictGet cd "location") (dictGet cd "website") (dictGet cd "linkedin")
        (dictGet cd "github") → v = PyVal.none := by
    intro v hv
    have h6 := mem_rendercvCv _ _ _ _ _ _ _ _ _ hv
    rcases hf with rfl | rfl | rfl | rfl <;>
      rcases h6 with ⟨hfe, hve⟩ | ⟨hfe, hve⟩ | ⟨hfe, hve⟩ | ⟨hfe, hve⟩ | ⟨hfe, hve⟩ | ⟨hfe, hve⟩ <;>
        first
          | exact absurd hfe (by decide)
          | exact hve.trans hnull
  by_cases hsec : (sectionsOf ei di si).isEmpty = true
  · rw [if_pos hsec, stripNone_lookup_none_iff]
    exact hmem
  · have hne : f ≠ "sections" := by
      rcases hf with rfl | rfl | rfl | rfl <;> decide
    rw [if_neg hsec, lookupKey?_dictSet_ne _ _ _ _ hne, stripNone_lookup_none_iff]
    exact hmem

theorem claim_c3_witness :
    ∃ m, lookupKey?
        [("cv", PyVal.dict [("name", PyVal.str ""), ("email", PyVal.str "a@b.c")])] "cv" =
      some (PyVal.dict m) ∧ lookupKey? m "phone" = Option.none :=
  claim_c3
    [("cv", PyVal.dict [("contact_info",
      PyVal.dict [("email", PyVal.str "a@b.c"), ("phone", PyVal.none)])])]
    [("contact_info", PyVal.dict [("email", PyVal.str "a@b.c"), ("phone", PyVal.none)])]
    [("email", PyVal.str "a@b.c"), ("phone", PyVal.none)]
    [("cv", PyVal.dict [("name", PyVal.str ""), ("email", PyVal.str "a@b.c")])]
    rfl rfl rfl "phone" (Or.inr (Or.inl rfl)) rfl

/-- C10: the projected cv mapping always contains a `name` key, and when
the source name is missing, null, or the empty string the emitted name is
the empty string — `name` is exempt from null-omission. -/
theorem claim_c10 (structured cvd cd out : List (String × PyVal))
    (h1 : pyOr (dictGet structured "cv") (PyVal.dict []) = PyVal.dict cvd)
    (h2 : pyOr (dictGet cvd "contact_info") (PyVal.dict []) = PyVal.dict cd)
    (hok : convert_structured_to_rendercv_yaml structured = Except.ok out) :
    ∃ m v, lookupKey? out "cv" = some (PyVal.dict m) ∧ lookupKey? m "name" = some v ∧
      ((dictGet cvd "name" = PyVal.none ∨ dictGet cvd "name" = PyVal.str "") →
        v = PyVal.str "") := by
  obtain ⟨ei, di, si, hei, hdi, hsi, hout⟩ :=
    convert_ok_inversion structured cvd cd out h1 h2 hok
  subst hout
  refine ⟨_, pyOr (dictGet cvd "name") (PyVal.str ""),
    assemble_lookup_cv _ _ _ _ _ _ _ _ _ _, ?_, ?_⟩
  · by_cases hsec : (sectionsOf ei di si).isEmpty = true
    · rw [if_pos hsec]
      exact rendercvCv_lookup_name _ _ _ _ _ _ _
    · have hne : ("name" : String) ≠ "sections" := by decide
      rw [if_neg hsec, lookupKey?_dictSet_ne _ _ _ _ hne]
      exact rendercvCv_lookup_name _ _ _ _ _ _ _
  · intro hn
    rcases hn with hn | hn <;> rw [hn] <;> rfl

theorem claim_c10_witness :
    ∃ m v, lookupKey? [("cv", PyVal.dict [("name", PyVal.str "")])] "cv" =
        some (PyVal.dict m) ∧ lookupKey? m "name" = some v ∧
      ((dictGet [] "name" = PyVal.none ∨ dictGet [] "name" = PyVal.str "") →
        v = PyVal.str "") :=
  claim_c10 [("cv", PyVal.dict [])] [] [] [("cv", PyVal.dict [("name", PyVal.str "")])]
    rfl rfl rfl

/-- C4: a section key (experience, education, skills) appears in the
projected sections mapping exactly when its collected entry list is
non-empty, and the `sections` key itself is omitted when every collected
list is empty. -/
theorem claim_c4 (structured cvd cd out : List (String × PyVal))
    (h1 : pyOr (dictGet structured "cv") (PyVal.dict []) = PyVal.dict cvd)
    (h2 : pyOr (dictGet cvd "contact_info") (PyVal.dict []) = PyVal.dict cd)
    (hok : convert_structured_to_rendercv_yaml structured = Except.ok out)
    (ei di si : List PyVal)
    (hei : pyIter (pyOr (dictGet cvd "experience") (PyVal.list [])) = Except.ok ei)
    (hdi : pyIter (pyOr (dictGet cvd "education") (PyVal.list [])) = Except.ok di)
    (hsi : pyIter (pyOr (dictGet cvd "skills") (PyVal.list [])) = Except.ok si) :
    ∃ m, lookupKey? out "cv" = some (PyVal.dict m) ∧
      ((ei.filterMap expEntryStep = [] ∧ di.filterMap eduEntryStep = [] ∧
        si.filterMap skillStep = []) → lookupKey? m "sections" = Option.none) ∧
      (∀ secs, lookupKey? m "sections" = some (PyVal.dict secs) →
        ((lookupKey? secs "experience" ≠ Option.none ↔ ei.filterMap expEntryStep ≠ []) ∧
         (lookupKey? secs "education" ≠ Option.none ↔ di.filterMap eduEntryStep ≠ []) ∧
         (lookupKey? secs "skills" ≠ Option.none ↔ si.filterMap skillStep ≠ []))) := by
  obtain ⟨ei', di', si', hei', hdi', hsi', hout⟩ :=
    convert_ok_inversion structured cvd cd out h1 h2 hok
  rw [hei] at hei'; injection hei' with hei'
  rw [hdi] at hdi'; injection hdi' with hdi'
  rw [hsi] at hsi'; injection hsi' with hsi'
  subst hei' hdi' hsi'
  refine ⟨_, by rw [hout]; exact assemble_lookup_cv _ _ _ _ _ _ _ _ _ _, ?_, ?_⟩
  · intro ⟨he, hd, hs⟩
    have hnil : sectionsOf ei di si = [] := (sectionsOf_eq_nil_iff ei di si).mpr ⟨he, hd, hs⟩
    rw [if_pos (by rw [List.isEmpty_iff]; exact hnil), stripNone_lookup_none_iff]
    intro v hv
    have h6 := mem_rendercvCv _ _ _ _ _ _ _ _ _ hv
    rcases h6 with ⟨hfe, _⟩ | ⟨hfe, _⟩ | ⟨hfe, _⟩ | ⟨hfe, _⟩ | ⟨hfe, _⟩ | ⟨hfe, _⟩ <;>
      exact absurd hfe (by decide)
  · intro secs hsecs
    have hseq : secs = sectionsOf ei di si :=
      out_sections_eq structured cvd cd out h1 h2 hok ei di si hei hdi hsi _
        (by rw [hout]; exact assemble_lookup_cv _ _ _ _ _ _ _ _ _ _) secs hsecs
    subst hseq
    refine ⟨?_, ?_, ?_⟩
    · rw [sectionsOf_lookup_exp]
      by_cases hE : ei.filterMap expEntryStep = []
      · simp [hE, List.isEmpty_iff]
      · simp [hE, List.isEmpty_iff]
    · rw [sectionsOf_lookup_edu]
      by_cases hD : di.filterMap eduEntryStep = []
      · simp [hD, List.isEmpty_iff]
      · simp [hD, List.isEmpty_iff]
    · rw [sectionsOf_lookup_skills]
      by_cases hS : si.filterMap skillStep = []
      · simp [hS, List.isEmpty_iff]
      · simp [hS, List.isEmpty_iff]

theorem claim_c4_witness :
    ∃ m, lookupKey? [("cv", PyVal.dict [("name", PyVal.str "A")])] "cv" =
        some (PyVal.dict m) ∧
      (([].filterMap expEntryStep = ([] : List PyVal) ∧
        [].filterMap eduEntryStep = ([] : List PyVal) ∧
        [].filterMap skillStep = ([] : List String)) →
          lookupKey? m "sections" = Option.none) ∧
      (∀ secs, lookupKey? m "sections" = some (PyVal.dict secs) →
        ((lookupKey? secs "experience" ≠ Option.none ↔
            ([] : List PyVal).filterMap expEntryStep ≠ []) ∧
         (lookupKey? secs "education" ≠ Option.none ↔
            ([] : List PyVal).filterMap eduEntryStep ≠ []) ∧
         (lookupKey? secs "skills" ≠ Option.none ↔
            ([] : List PyVal).filterMap skillStep ≠ []))) :=
  claim_c4
    [("cv", PyVal.dict [("name", PyVal.str "A"),
      ("experience", PyVal.list []), ("skills", PyVal.list [])])]
    [("name", PyVal.str "A"), ("experience", PyVal.list []), ("skills", PyVal.list [])]
    [] [("cv", PyVal.dict [("name", PyVal.str "A")])]
    rfl rfl rfl [] [] [] rfl rfl rfl

theorem expEntryStep_props (item e : PyVal) (h : expEntryStep item = some e) :
    ∃ dd, e = PyVal.dict dd ∧ (∀ kv ∈ dd, kv.2 ≠ PyVal.none) ∧
      ∃ hv, lookupKey? dd "highlights" = some hv := by
  cases item with
  | dict d =>
      rw [expEntryStep] at h
      injection h with h
      refine ⟨_, h.symm, fun kv hkv => mem_stripNone_ne_none _ _ hkv,
        pyOr (dictGet d "highlights") (PyVal.list []), ?_⟩
      apply stripNone_lookup_of_some
      · simp [lookupKey?_cons]
      · exact (isNone_false_iff _).mp (isNone_pyOr _ _ rfl)
  | none => cases h
  | bool b => cases h
  | int n => cases h
  | str s => cases h
  | list xs => cases h

theorem eduEntryStep_props (item e : PyVal) (h : eduEntryStep item = some e) :
    ∃ dd, e = PyVal.dict dd ∧ (∀ kv ∈ dd, kv.2 ≠ PyVal.none) ∧
      ∃ hv, lookupKey? dd "highlights" = some hv := by
  cases item with
  | dict d =>
      rw [eduEntryStep] at h
      injection h with h
      refine ⟨_, h.symm, fun kv hkv => mem_stripNone_ne_none _ _ hkv,
        pyOr (dictGet d "notes") (PyVal.list []), ?_⟩
      apply stripNone_lookup_of_some
      · simp [lookupKey?_cons]
      · exact (isNone_false_iff _).mp (isNone_pyOr _ _ rfl)
  | none => cases h
  | bool b => cases h
  | int n => cases h
  | str s => cases h
  | list xs => cases h

theorem eduEntry_no_notes (d : List (String × PyVal)) (fields : List (String × PyVal))
    (h : eduEntryStep (PyVal.dict d) = some (PyVal.dict fields)) :
    lookupKey? fields "notes" = Option.none := by
  rw [eduEntryStep] at h
  injection h with h
  injection h with h
  subst h
  rw [stripNone_lookup_none_iff]
  intro v hv
  simp [List.mem_cons, Prod.mk.injEq] at hv

/-- C5: every projected experience/education entry is a mapping with no
null-valued field (nulls are deleted), while the list-valued `highlights`
field is always present — it defaults to the explicit empty list when the
source has no highlights/notes, and empty containers are not
auto-deleted from entries. -/
theorem claim_c5 (structured cvd cd out : List (String × PyVal))
    (h1 : pyOr (dictGet structured "cv") (PyVal.dict []) = PyVal.dict cvd)
    (h2 : pyOr (dictGet cvd "contact_info") (PyVal.dict []) = PyVal.dict cd)
    (hok : convert_structured_to_rendercv_yaml structured = Except.ok out)
    (ei di si : List PyVal)
    (hei : pyIter (pyOr (dictGet cvd "experience") (PyVal.list [])) = Except.ok ei)
    (hdi : pyIter (pyOr (dictGet cvd "education") (PyVal.list [])) = Except.ok di)
    (hsi : pyIter (pyOr (dictGet cvd "skills") (PyVal.list [])) = Except.ok si)
    (m : List (String × PyVal)) (hm : lookupKey? out "cv" = some (PyVal.dict m))
    (secs : List (String × PyVal))
    (hs : lookupKey? m "sections" = some (PyVal.dict secs)) :
    (∀ es, lookupKey? secs "experience" = some (PyVal.list es) →
       ∀ e ∈ es, ∃ dd, e = PyVal.dict dd ∧ (∀ kv ∈ dd, kv.2 ≠ PyVal.none) ∧
         ∃ hv, lookupKey? dd "highlights" = some hv) ∧
    (∀ es, lookupKey? secs "education" = some (PyVal.list es) →
       ∀ e ∈ es, ∃ dd, e = PyVal.dict dd ∧ (∀ kv ∈ dd, kv.2 ≠ PyVal.none) ∧
         ∃ hv, lookupKey? dd "highlights" = some hv) ∧
    (∀ dd, dictGet dd "highlights" = PyVal.none →
       ∃ fields, expEntryStep (PyVal.dict dd) = some (PyVal.dict fields) ∧
         lookupKey? fields "highlights" = some (PyVal.list [])) ∧
    (∀ dd, dictGet dd "notes" = PyVal.none →
       ∃ fields, eduEntryStep (PyVal.dict dd) = some (PyVal.dict fields) ∧
         lookupKey? fields "highlights" = some (PyVal.list [])) := by
  have hseq : secs = sectionsOf ei di si :=
    out_sections_eq structured cvd cd out h1 h2 hok ei di si hei hdi hsi m hm secs hs
  subst hseq
  refine ⟨?_, ?_, ?_, ?_⟩
  · intro es hes e he
    rw [sectionsOf_lookup_exp] at hes
    by_cases hE : (ei.filterMap expEntryStep).isEmpty = true
    · rw [if_pos hE] at hes; cases hes
    · rw [if_neg hE] at hes
      injection hes with hes
      injection hes with hes
      subst hes
      obtain ⟨item, _, hstep⟩ := List.mem_filterMap.mp he
      exact expEntryStep_props item e hstep
  · intro es hes e he
    rw [sectionsOf_lookup_edu] at hes
    by_cases hD : (di.filterMap eduEntryStep).isEmpty = true
    · rw [if_pos hD] at hes; cases hes
    · rw [if_neg hD] at hes
      injection hes with hes
      injection hes with hes
      subst hes
      obtain ⟨item, _, hstep⟩ := List.mem_filterMap.mp he
      exact eduEntryStep_props item e hstep
  · intro dd h
    refine ⟨_, rfl, ?_⟩
    have hl : lookupKey?
        [("company", pyOr (dictGet dd "company") (PyVal.str "")),
         ("position", dictGet dd "position"),
         ("location", dictGet dd "location"),
         ("start_date", dictGet dd "start_date"),
         ("end_date", dictGet dd "end_date"),
         ("highlights", pyOr (dictGet dd "highlights") (PyVal.list []))] "highlights" =
        some (pyOr (dictGet dd "highlights") (PyVal.list [])) := by
      simp [lookupKey?_cons]
    have hne : pyOr (dictGet dd "highlights") (PyVal.list []) ≠ PyVal.none :=
      (isNone_false_iff _).mp (isNone_pyOr _ _ rfl)
    exact (stripNone_lookup_of_some _ _ _ hl hne).trans (by rw [h]; rfl)
  · intro dd h
    refine ⟨_, rfl, ?_⟩
    have hl : lookupKey?
        [("institution", pyOr (dictGet dd "institution") (PyVal.str "")),
         ("degree", dictGet dd "degree"),
         ("field", dictGet dd "field"),
         ("location", dictGet dd "location"),
         ("start_date", dictGet dd "start_date"),
         ("end_date", dictGet dd "end_date"),
         ("highlights", pyOr (dictGet dd "notes") (PyVal.list []))] "highlights" =
        some (pyOr (dictGet dd "notes") (PyVal.list [])) := by
      simp [lookupKey?_cons]
    have hne : pyOr (dictGet dd "notes") (PyVal.list []) ≠ PyVal.none :=
      (isNone_false_iff _).mp (isNone_pyOr _ _ rfl)
    exact (stripNone_lookup_of_some _ _ _ hl hne).trans (by rw [h]; rfl)

theorem claim_c5_witness :
    (∀ es, lookupKey? [("experience",
        PyVal.list [PyVal.dict [("company", PyVal.str "Acme"),
          ("highlights", PyVal.list [])]])] "experience" = some (PyVal.list es) →
       ∀ e ∈ es, ∃ dd, e = PyVal.dict dd ∧ (∀ kv ∈ dd, kv.2 ≠ PyVal.none) ∧
         ∃ hv, lookupKey? dd "highlights" = some hv) ∧
    (∀ es, lookupKey? [("experience",
        PyVal.list [PyVal.dict [("company", PyVal.str "Acme"),
          ("highlights", PyVal.list [])]])] "education" = some (PyVal.list es) →
       ∀ e ∈ es, ∃ dd, e = PyVal.dict dd ∧ (∀ kv ∈ dd, kv.2 ≠ PyVal.none) ∧
         ∃ hv, lookupKey? dd "highlights" = some hv) ∧
    (∀ dd, dictGet dd "highlights" = PyVal.none →
       ∃ fields, expEntryStep (PyVal.dict dd) = some (PyVal.dict fields) ∧
         lookupKey? fields "highlights" = some (PyVal.list [])) ∧
    (∀ dd, dictGet dd "notes" = PyVal.none →
       ∃ fields, eduEntryStep (PyVal.dict dd) = some (PyVal.dict fields) ∧
         lookupKey? fields "highlights" = some (PyVal.list [])) :=
  claim_c5
    [("cv", PyVal.dict [("experience",
      PyVal.list [PyVal.dict [("company", PyVal.str "Acme")]])])]
    [("experience", PyVal.list [PyVal.dict [("company", PyVal.str "Acme")]])]
    []
    [("cv", PyVal.dict [("name", PyVal.str ""),
      ("sections", PyVal.dict [("experience",
        PyVal.list [PyVal.dict [("company", PyVal.str "Acme"),
          ("highlights", PyVal.list [])]])])])]
    rfl rfl rfl
    [PyVal.dict [("company", PyVal.str "Acme")]] [] []
    rfl rfl rfl
    [("name", PyVal.str ""),
     ("sections", PyVal.dict [("experience",
       PyVal.list [PyVal.dict [("company", PyVal.str "Acme"),
         ("highlights", PyVal.list [])]])])]
    rfl
    [("experience", PyVal.list [PyVal.dict [("company", PyVal.str "Acme"),
      ("highlights", PyVal.list [])]])]
    rfl

/-- C9: every education source item that is a mapping projects to an
entry whose `highlights` key carries the source `notes` sequence
(defaulting to the empty list when `notes` is null or missing), and a
projected education entry never contains a `notes` key. -/
theorem claim_c9 (structured cvd cd out : List (String × PyVal))
    (h1 : pyOr (dictGet structured "cv") (PyVal.dict []) = PyVal.dict cvd)
    (h2 : pyOr (dictGet cvd "contact_info") (PyVal.dict []) = PyVal.dict cd)
    (hok : convert_structured_to_rendercv_yaml structured = Except.ok out)
    (ei di si : List PyVal)
    (hei : pyIter (pyOr (dictGet cvd "experience") (PyVal.list [])) = Except.ok ei)
    (hdi : pyIter (pyOr (dictGet cvd "education") (PyVal.list [])) = Except.ok di)
    (hsi : pyIter (pyOr (dictGet cvd "skills") (PyVal.list [])) = Except.ok si)
    (m : List (String × PyVal)) (hm : lookupKey? out "cv" = some (PyVal.dict m))
    (secs : List (String × PyVal))
    (hs : lookupKey? m "sections" = some (PyVal.dict secs))
    (es : List PyVal)
    (hes : lookupKey? secs "education" = some (PyVal.list es)) :
    es = di.filterMap eduEntryStep ∧
    (∀ dd ns, dictGet dd "notes" = PyVal.list ns →
       ∃ fields, eduEntryStep (PyVal.dict dd) = some (PyVal.dict fields) ∧
         lookupKey? fields "highlights" = some (PyVal.list ns) ∧
         lookupKey? fields "notes" = Option.none) ∧
    (∀ dd, dictGet dd "notes" = PyVal.none →
       ∃ fields, eduEntryStep (PyVal.dict dd) = some (PyVal.dict fields) ∧
         lookupKey? fields "highlights" = some (PyVal.list []) ∧
         lookupKey? fields "notes" = Option.none) := by
  have hseq : secs = sectionsOf ei di si :=
    out_sections_eq structured cvd cd out h1 h2 hok ei di si hei hdi hsi m hm secs hs
  subst hseq
  refine ⟨?_, ?_, ?_⟩
  · rw [sectionsOf_lookup_edu] at hes
    by_cases hD : (di.filterMap eduEntryStep).isEmpty = true
    · rw [if_pos hD] at hes; cases hes
    · rw [if_neg hD] at hes
      injection hes with hes
      injection hes with hes
      exact hes.symm
  · intro dd ns h
    refine ⟨_, rfl, ?_, eduEntry_no_notes dd _ rfl⟩
    have hl : lookupKey?
        [("institution", pyOr (dictGet dd "institution") (PyVal.str "")),
         ("degree", dictGet dd "degree"),
         ("field", dictGet dd "field"),
         ("location", dictGet dd "location"),
         ("start_date", dictGet dd "start_date"),
         ("end_date", dictGet dd "end_date"),
         ("highlights", pyOr (dictGet dd "notes") (PyVal.list []))] "highlights" =
        some (pyOr (dictGet dd "notes") (PyVal.list [])) := by
      simp [lookupKey?_cons]
    have hne : pyOr (dictGet dd "notes") (PyVal.list []) ≠ PyVal.none :=
      (isNone_false_iff _).mp (isNone_pyOr _ _ rfl)
    refine (stripNone_lookup_of_some _ _ _ hl hne).trans ?_
    rw [h]
    cases ns <;> rfl
  · intro dd h
    refine ⟨_, rfl, ?_, eduEntry_no_notes dd _ rfl⟩
    have hl : lookupKey?
        [("institution", pyOr (dictGet dd "institution") (PyVal.str "")),
         ("degree", dictGet dd "degree"),
         ("field", dictGet dd "field"),
         ("location", dictGet dd "location"),
         ("start_date", dictGet dd "start_date"),
         ("end_date", dictGet dd "end_date"),
         ("highlights", pyOr (dictGet dd "notes") (PyVal.list []))] "highlights" =
        some (pyOr (dictGet dd "notes") (PyVal.list [])) := by
      simp [lookupKey?_cons]
    have hne : pyOr (dictGet dd "notes") (PyVal.list []) ≠ PyVal.none :=
      (isNone_false_iff _).mp (isNone_pyOr _ _ rfl)
    exact (stripNone_lookup_of_some _ _ _ hl hne).trans (by rw [h]; rfl)

theorem claim_c9_witness :
    ([PyVal.dict [("institution", PyVal.str "MIT"),
        ("highlights", PyVal.list [PyVal.str "x"])]] : List PyVal) =
      [PyVal.dict [("institution", PyVal.str "MIT"),
        ("notes", PyVal.list [PyVal.str "x"])]].filterMap eduEntryStep ∧
    (∀ dd ns, dictGet dd "notes" = PyVal.list ns →
       ∃ fields, eduEntryStep (PyVal.dict dd) = some (PyVal.dict fields) ∧
         lookupKey? fields "highlights" = some (PyVal.list ns) ∧
         lookupKey? fields "notes" = Option.none) ∧
    (∀ dd, dictGet dd "notes" = PyVal.none →
       ∃ fields, eduEntryStep (PyVal.dict dd) = some (PyVal.dict fields) ∧
         lookupKey? fields "highlights" = some (PyVal.list []) ∧
         lookupKey? fields "notes" = Option.none) :=
  claim_c9
    [("cv", PyVal.dict [("education", PyVal.list [PyVal.dict
      [("institution", PyVal.str "MIT"), ("notes", PyVal.list [PyVal.str "x"])]])])]
    [("education", PyVal.list [PyVal.dict
      [("institution", PyVal.str "MIT"), ("notes", PyVal.list [PyVal.str "x"])]])]
    []
    [("cv", PyVal.dict [("name", PyVal.str ""),
      ("sections", PyVal.dict [("education", PyVal.list [PyVal.dict
        [("institution", PyVal.str "MIT"),
         ("highlights", PyVal.list [PyVal.str "x"])]])])])]
    rfl rfl rfl
    [] [PyVal.dict [("institution", PyVal.str "MIT"),
      ("notes", PyVal.list [PyVal.str "x"])]] []
    rfl rfl rfl
    [("name", PyVal.str ""),
     ("sections", PyVal.dict [("education", PyVal.list [PyVal.dict
       [("institution", PyVal.str "MIT"),
        ("highlights", PyVal.list [PyVal.str "x"])]])])]
    rfl
    [("education", PyVal.list [PyVal.dict
      [("institution", PyVal.str "MIT"),
       ("highlights", PyVal.list [PyVal.str "x"])]])]
    rfl
    [PyVal.dict [("institution", PyVal.str "MIT"),
      ("highlights", PyVal.list [PyVal.str "x"])]]
    rfl

/-- C1 counterexample: on `skills = ["Go", "", "  Rust  "]` the projector
emits exactly one skills entry, but its value is `"Go,   Rust  "` — the
kept skills are joined verbatim, NOT trimmed — which differs from the
claimed `"Go, Rust"`. -/
theorem claim_c1_counterexample :
    convert_structured_to_rendercv_yaml
        [("cv", PyVal.dict [("skills",
          PyVal.list [PyVal.str "Go", PyVal.str "", PyVal.str "  Rust  "])])] =
      Except.ok [("cv", PyVal.dict [("name", PyVal.str ""),
        ("sections", PyVal.dict [("skills",
          PyVal.list [PyVal.dict [("details", PyVal.str "Go,   Rust  ")]])])])] ∧
    ("Go,   Rust  " == "Go, Rust") = false :=
  ⟨rfl, by decide⟩

/-- C1 (amended): the projector keeps exactly the skill entries that are
strings with truthy `strip()` (non-strings, empty and whitespace-only
strings are dropped), and when any survive it emits exactly one
synthetic skills entry whose single field joins the surviving skills
verbatim (untrimmed) with `", "`; when none survive the skills section
is omitted. -/
theorem claim_c1 (structured cvd cd out : List (String × PyVal))
    (h1 : pyOr (dictGet structured "cv") (PyVal.dict []) = PyVal.dict cvd)
    (h2 : pyOr (dictGet cvd "contact_info") (PyVal.dict []) = PyVal.dict cd)
    (hok : convert_structured_to_rendercv_yaml structured = Except.ok out)
    (ei di si : List PyVal)
    (hei : pyIter (pyOr (dictGet cvd "experience") (PyVal.list [])) = Except.ok ei)
    (hdi : pyIter (pyOr (dictGet cvd "education") (PyVal.list [])) = Except.ok di)
    (hsi : pyIter (pyOr (dictGet cvd "skills") (PyVal.list [])) = Except.ok si) :
    ∃ m, lookupKey? out "cv" = some (PyVal.dict m) ∧
      (si.filterMap skillStep = [] →
        ∀ secs, lookupKey? m "sections" = some (PyVal.dict secs) →
          lookupKey? secs "skills" = Option.none) ∧
      (si.filterMap skillStep ≠ [] →
        ∃ secs, lookupKey? m "sections" = some (PyVal.dict secs) ∧
          lookupKey? secs "skills" = some (PyVal.list [PyVal.dict [("details",
            PyVal.str (String.intercalate ", " (si.filterMap skillStep)))]])) ∧
      (∀ str : String, skillStep (PyVal.str str) =
        (if pyStripStr str = "" then Option.none else some str)) ∧
      (∀ v : PyVal, (∀ str, v ≠ PyVal.str str) → skillStep v = Option.none) := by
  obtain ⟨ei', di', si', hei', hdi', hsi', hout⟩ :=
    convert_ok_inversion structured cvd cd out h1 h2 hok
  rw [hei] at hei'; injection hei' with hei'
  rw [hdi] at hdi'; injection hdi' with hdi'
  rw [hsi] at hsi'; injection hsi' with hsi'
  subst hei' hdi' hsi' hout
  refine ⟨_, assemble_lookup_cv _ _ _ _ _ _ _ _ _ _, ?_, ?_, fun str => rfl, ?_⟩
  · intro hkept secs hsecs
    have hseq : secs = sectionsOf ei di si := by
      by_cases hsec : (sectionsOf ei di si).isEmpty = true
      · rw [if_pos hsec] at hsecs
        have hnone : lookupKey? (stripNoneFields
            (rendercvCvOf (dictGet cvd "name") (dictGet cd "email") (dictGet cd "phone")
              (dictGet cd "location") (dictGet cd "website") (dictGet cd "linkedin")
              (dictGet cd "github"))) "sections" = Option.none := by
          rw [stripNone_lookup_none_iff]
          intro v hv
          have h6 := mem_rendercvCv _ _ _ _ _ _ _ _ _ hv
          rcases h6 with ⟨hfe, _⟩ | ⟨hfe, _⟩ | ⟨hfe, _⟩ | ⟨hfe, _⟩ | ⟨hfe, _⟩ | ⟨hfe, _⟩ <;>
            exact absurd hfe (by decide)
        rw [hnone] at hsecs
        cases hsecs
      · rw [if_neg hsec, lookupKey?_dictSet_self] at hsecs
        injection hsecs with hsecs
        injection hsecs with hsecs
        exact hsecs.symm
    subst hseq
    rw [sectionsOf_lookup_skills, if_pos (by rw [List.isEmpty_iff]; exact hkept)]
  · intro hkept
    have hsec : ¬ (sectionsOf ei di si).isEmpty = true := by
      rw [List.isEmpty_iff]
      intro hnil
      exact hkept ((sectionsOf_eq_nil_iff ei di si).mp hnil).2.2
    rw [if_neg hsec]
    refine ⟨sectionsOf ei di si, lookupKey?_dictSet_self _ _ _, ?_⟩
    rw [sectionsOf_lookup_skills,
      if_neg (by rw [List.isEmpty_iff]; exact hkept)]
  · intro v hv
    cases v with
    | str s => exact absurd rfl (hv s)
    | none => rfl
    | bool b => rfl
    | int n => rfl
    | list xs => rfl
    | dict d => rfl

theorem claim_c1_witness :
    ∃ m, lookupKey? [("cv", PyVal.dict [("name", PyVal.str ""),
        ("sections", PyVal.dict [("skills",
          PyVal.list [PyVal.dict [("details", PyVal.str "Go,   Rust  ")]])])])] "cv" =
      some (PyVal.dict m) ∧
      (([PyVal.str "Go", PyVal.str "", PyVal.str "  Rust  "].filterMap skillStep) = [] →
        ∀ secs, lookupKey? m "sections" = some (PyVal.dict secs) →
          lookupKey? secs "skills" = Option.none) ∧
      (([PyVal.str "Go", PyVal.str "", PyVal.str "  Rust  "].filterMap skillStep) ≠ [] →
        ∃ secs, lookupKey? m "sections" = some (PyVal.dict secs) ∧
          lookupKey? secs "skills" = some (PyVal.list [PyVal.dict [("details",
            PyVal.str (String.intercalate ", "
              ([PyVal.str "Go", PyVal.str "", PyVal.str "  Rust  "].filterMap
                skillStep)))]])) ∧
      (∀ str : String, skillStep (PyVal.str str) =
        (if pyStripStr str = "" then Option.none else some str)) ∧
      (∀ v : PyVal, (∀ str, v ≠ PyVal.str str) → skillStep v = Option.none) :=
  claim_c1
    [("cv", PyVal.dict [("skills",
      PyVal.list [PyVal.str "Go", PyVal.str "", PyVal.str "  Rust  "])])]
    [("skills", PyVal.list [PyVal.str "Go", PyVal.str "", PyVal.str "  Rust  "])]
    []
    [("cv", PyVal.dict [("name", PyVal.str ""),
      ("sections", PyVal.dict [("skills",
        PyVal.list [PyVal.dict [("details", PyVal.str "Go,   Rust  ")]])])])]
    rfl rfl rfl
    [] [] [PyVal.str "Go", PyVal.str "", PyVal.str "  Rust  "]
    rfl rfl rfl

/-- C7: the projector is total on StructuredRecords — whenever the input
(however sparse) has the StructuredRecord shape, projection returns a
result rather than failing, and list entries that are not mappings are
silently dropped by the per-entry steps rather than aborting. -/
theorem claim_c7 :
    (∀ structured : List (String × PyVal), isStructuredRecord structured = true →
       ∃ out, convert_structured_to_rendercv_yaml structured = Except.ok out) ∧
    (∀ item : PyVal, (∀ dd, item ≠ PyVal.dict dd) →
       expEntryStep item = Option.none ∧ eduEntryStep item = Option.none) := by
  constructor
  · intro structured h
    rw [isStructuredRecord] at h
    cases hcv : pyOr (dictGet structured "cv") (PyVal.dict []) <;> rw [hcv] at h <;>
      try exact Bool.noConfusion h
    case dict cvd =>
    rw [Bool.and_eq_true, Bool.and_eq_true, Bool.and_eq_true] at h
    obtain ⟨⟨⟨hc, he⟩, hd⟩, hs⟩ := h
    cases hcon : pyOr (dictGet cvd "contact_info") (PyVal.dict []) <;> rw [hcon] at hc <;>
      try exact Bool.noConfusion hc
    case dict cd =>
    cases hexp : pyOr (dictGet cvd "experience") (PyVal.list []) <;> rw [hexp] at he <;>
      try exact Bool.noConfusion he
    case list ei =>
    cases hedu : pyOr (dictGet cvd "education") (PyVal.list []) <;> rw [hedu] at hd <;>
      try exact Bool.noConfusion hd
    case list di =>
    cases hski : pyOr (dictGet cvd "skills") (PyVal.list []) <;> rw [hski] at hs <;>
      try exact Bool.noConfusion hs
    case list si =>
    exact ⟨_, convert_ok_of_shapes structured cvd cd ei di si hcv hcon
      (by rw [hexp]; rfl) (by rw [hedu]; rfl) (by rw [hski]; rfl)⟩
  · intro item hnd
    cases item with
    | dict dd => exact absurd rfl (hnd dd)
    | none => exact ⟨rfl, rfl⟩
    | bool b => exact ⟨rfl, rfl⟩
    | int n => exact ⟨rfl, rfl⟩
    | str s => exact ⟨rfl, rfl⟩
    | list xs => exact ⟨rfl, rfl⟩

theorem claim_c7_witness :
    (∃ out, convert_structured_to_rendercv_yaml
        [("cv", PyVal.dict [("experience", PyVal.list
          [PyVal.str "junk", PyVal.dict [("company", PyVal.str "Acme")]])])] =
      Except.ok out) ∧
    expEntryStep (PyVal.str "junk") = Option.none :=
  ⟨claim_c7.1 _ rfl,
   (claim_c7.2 (PyVal.str "junk") (fun _ h => PyVal.noConfusion h)).1⟩

theorem claim_c2_witness :
    extractJsonObject (fun s => if s = "\x7b\x7d".data then some 1 else Option.none)
        "  \x7b\x7d  ".data = Except.ok 1 ∧
    extractJsonObject (fun _ => (Option.none : Option Nat)) "hello".data =
      Except.error SalvageErr.noJsonFound ∧
    extractJsonObject (fun _ => (Option.none : Option Nat)) "\x7d x \x7b".data =
      Except.error SalvageErr.noJsonFound ∧
    extractJsonObject (fun s => if s = "\x7bx\x7d".data then some 3 else Option.none)
        "ab\x7bx\x7dcd".data = Except.ok 3 := by
  refine ⟨?_, ?_, ?_, ?_⟩
  · exact claim_c2.1 Nat (fun s => if s = "\x7b\x7d".data then some 1 else Option.none)
      "  \x7b\x7d  ".data 1 (by decide)
  · exact claim_c2.2.1 Nat (fun _ => (Option.none : Option Nat)) "hello".data rfl
      (Or.inl (by decide))
  · exact claim_c2.2.2.1 Nat (fun _ => (Option.none : Option Nat)) "\x7d x \x7b".data 4 0
      rfl (by decide) (by decide) (by decide)
  · exact (claim_c2.2.2.2 Nat
      (fun s => if s = "\x7bx\x7d".data then some 3 else Option.none)
      "ab\x7bx\x7dcd".data 2 4 (by decide) (by decide) (by decide) (by decide)).trans rfl

theorem claim_c6_witness :
    (⟨"resume.md", 50⟩ : MdFile) ∈ ([⟨"a.md", 100⟩, ⟨"resume.md", 50⟩] : List MdFile) ∧
    ∀ g ∈ ([⟨"a.md", 100⟩, ⟨"resume.md", 50⟩] : List MdFile),
      keyLt (scoreMd ⟨"resume.md", 50⟩) (scoreMd g) = false :=
  claim_c6.2.1 [⟨"a.md", 100⟩, ⟨"resume.md", 50⟩] ⟨"resume.md", 50⟩ rfl
